import Mathlib

/-!
Verification of the note-editor feature: the note save action
(`src/app/routes/resources+/note-editor.tsx`), the note edit loader
(`src/app/routes/users+/$username_+/notes.$noteId_.edit.tsx`), and the
`note_images` migration
(`src/prisma/migrations/20230711042606_note_images/migration.sql`).

The Prisma database is embedded as lists of rows plus a counter supplying
the server-generated ids (cuids in the source; naturals here, fresh by the
counter discipline).  Each Prisma call is a pure function on this state,
and the route handlers are straight-line translations of the source.
-/

namespace NoteApp

/-- A row of the `User` table (only the fields this feature touches). -/
structure User where
  id : Nat
  username : String
  deriving Repr, DecidableEq

/-- A row of the `Note` table. -/
structure Note where
  id : Nat
  ownerId : Nat
  title : String
  content : String
  deriving Repr, DecidableEq

/-- A row of the `File` table: `prisma.file.create` stores the raw bytes. -/
structure FileRow where
  id : Nat
  blob : List Nat
  deriving Repr, DecidableEq

/-- A row of the `Image` table as the application writes it
(`fileId` is the unique key; `createdAt` and `updatedAt` are defaulted by the
database and irrelevant to the handlers, so they are omitted here and modelled
separately for the migration). -/
structure Image where
  fileId : Nat
  contentType : String
  altText : Option String
  noteId : Option Nat
  deriving Repr, DecidableEq

/-- The database state, with `nextId` the source of server-generated ids. -/
structure DB where
  users : List User
  notes : List Note
  files : List FileRow
  images : List Image
  nextId : Nat
  deriving Repr, DecidableEq

/-- `prisma.note.findFirst({ where: { id, ownerId } })`, as used by both the
action and the loader. -/
def findFirstNote (db : DB) (id : Nat) (ownerId : Nat) : Option Note :=
  db.notes.find? (fun n => n.id == id && n.ownerId == ownerId)

/-- `prisma.note.update({ where: { id }, data: { ownerId, title, content } })`:
the row with the given id gets all three data fields written. -/
def noteUpdate (db : DB) (id : Nat) (ownerId : Nat) (title content : String) : DB :=
  { db with
      notes := db.notes.map (fun n =>
        if n.id == id then
          { n with ownerId := ownerId, title := title, content := content }
        else n) }

/-- `prisma.note.create({ data: { ownerId, title, content } })`: a fresh id is
generated and the new row appended; returns the generated id. -/
def noteCreate (db : DB) (ownerId : Nat) (title content : String) : Nat × DB :=
  (db.nextId,
   { db with
       notes := db.notes ++ [{ id := db.nextId, ownerId := ownerId,
                               title := title, content := content }],
       nextId := db.nextId + 1 })

/-- `prisma.file.create({ data: { blob } })`: stores the bytes under a fresh id
and returns that id. -/
def fileCreate (db : DB) (blob : List Nat) : Nat × DB :=
  (db.nextId,
   { db with
       files := db.files ++ [{ id := db.nextId, blob := blob }],
       nextId := db.nextId + 1 })

/-- `prisma.image.create({ data: { contentType, noteId, altText, fileId } })`. -/
def imageCreate (db : DB) (contentType : String) (noteId : Nat)
    (altText : Option String) (fileId : Nat) : DB :=
  { db with
      images := db.images ++ [{ fileId := fileId, contentType := contentType,
                                altText := altText, noteId := some noteId }] }

/-- `note.owner.username` via the `select: { owner: { select: { username } } }`
relation: look up the owning user's name. -/
def lookupUsername (db : DB) (uid : Nat) : Option String :=
  (db.users.find? (fun u => u.id == uid)).map (fun u => u.username)

/-- One entry of the parsed multipart `images` list, after the upload handler
wrote the part to disk (`ServerImageFieldsetSchema`): the stored file's path,
its content type, its name, and the optional alt text. -/
structure RawImage where
  filepath : String
  filetype : String
  name : String
  altText : Option String
  deriving Repr, DecidableEq

/-- The multipart form submission as conform sees it: the `intent` field it
injects, plus the note-editor fields. -/
structure RawSubmission where
  intent : String
  id : Option Nat
  title : String
  content : String
  images : List RawImage
  deriving Repr, DecidableEq

/-- zod's message for `min(n)` on a string. -/
def minLenError (n : Nat) : String :=
  "String must contain at least " ++ toString n ++ " character(s)"

/-- zod's message for `max(n)` on a string. -/
def maxLenError (n : Nat) : String :=
  "String must contain at most " ++ toString n ++ " character(s)"

/-- The field errors produced by checking `ServerNoteEditorSchema`
(`title: z.string().min(1).max(100)`, `content: z.string().min(1).max(10_000)`)
with `acceptMultipleErrors`, as (field, message) pairs: every violated bound
contributes its error, none is short-circuited. -/
def schemaErrors (raw : RawSubmission) : List (String × String) :=
  (if raw.title.length < 1 then [("title", minLenError 1)] else []) ++
  (if 100 < raw.title.length then [("title", maxLenError 100)] else []) ++
  (if raw.content.length < 1 then [("content", minLenError 1)] else []) ++
  (if 10000 < raw.content.length then [("content", maxLenError 10000)] else [])

/-- The value produced by a successful parse of `ServerNoteEditorSchema`. -/
structure NotePayload where
  id : Option Nat
  title : String
  content : String
  images : List RawImage
  deriving Repr, DecidableEq

/-- The result of conform's `parse(formData, { schema, acceptMultipleErrors })`:
the submitted intent and payload are echoed, the collected errors, and the
parsed value exactly when validation succeeded. -/
structure Submission where
  intent : String
  payload : RawSubmission
  errors : List (String × String)
  value : Option NotePayload
  deriving Repr, DecidableEq

/-- conform's `parse` against `ServerNoteEditorSchema`. -/
def parseSubmission (raw : RawSubmission) : Submission :=
  let errs := schemaErrors raw
  { intent := raw.intent
    payload := raw
    errors := errs
    value :=
      if errs.isEmpty then
        some { id := raw.id, title := raw.title, content := raw.content,
               images := raw.images }
      else none }

/-- The action's possible responses: the idle echo for a non-submit intent,
a `json(..., { status })` error response (400 validation / 404 not found)
carrying the submission, or `redirectWithToast(url, { title })`. -/
inductive ActionResult where
  | idle : Submission → ActionResult
  | err : Nat → Submission → ActionResult
  | redirectWithToast : String → String → ActionResult
  deriving Repr, DecidableEq

/-- The per-entry image loop of the action: for each entry, read the stored
upload from disk (`fsRead` stands for `fs.promises.readFile`), create the
File row, then create the Image row pointing at it and at the note. -/
def saveImages (fsRead : String → List Nat) (noteId : Nat) :
    List RawImage → DB → DB
  | [], db => db
  | e :: rest, db =>
    let fd := fileCreate db (fsRead e.filepath)
    saveImages fsRead noteId rest
      (imageCreate fd.2 e.filetype noteId e.altText fd.1)

/-- The `action` of `resources+/note-editor.tsx`, after multipart parsing:
returns the response together with the database state it leaves behind. -/
def action (fsRead : String → List Nat) (db : DB) (userId : Nat)
    (raw : RawSubmission) : ActionResult × DB :=
  let submission := parseSubmission raw
  if submission.intent != "submit" then
    (ActionResult.idle submission, db)
  else
    match submission.value with
    | none => (ActionResult.err 400 submission, db)
    | some v =>
      match v.id with
      | some i =>
        match findFirstNote db i userId with
        | none => (ActionResult.err 404 submission, db)
        | some _ =>
          let db1 := noteUpdate db i userId v.title v.content
          let db2 := saveImages fsRead i v.images db1
          (ActionResult.redirectWithToast
            ("/users/" ++ (lookupUsername db1 userId).getD "" ++
              "/notes/" ++ toString i)
            "Note updated", db2)
      | none =>
        let nd := noteCreate db userId v.title v.content
        let db2 := saveImages fsRead nd.1 v.images nd.2
        (ActionResult.redirectWithToast
          ("/users/" ++ (lookupUsername nd.2 userId).getD "" ++
            "/notes/" ++ toString nd.1)
          "Note created", db2)

/-- An image reference as the loader selects it. -/
structure ImageRef where
  fileId : Nat
  altText : Option String
  deriving Repr, DecidableEq

/-- The note data returned by the loader's `select`. -/
structure LoadedNote where
  id : Nat
  title : String
  content : String
  images : List ImageRef
  deriving Repr, DecidableEq

/-- The loader's `images: { select: { fileId, altText } }` relation: the images
whose `noteId` points at the note. -/
def noteImages (db : DB) (noteId : Nat) : List ImageRef :=
  (db.images.filter (fun i => i.noteId == some noteId)).map
    (fun i => { fileId := i.fileId, altText := i.altText })

/-- The `loader` of `notes.$noteId_.edit.tsx`: find the note by
`(id, ownerId = userId)`; throw a 404 response when absent. -/
def loader (db : DB) (userId : Nat) (noteId : Nat) : Except Nat LoadedNote :=
  match findFirstNote db noteId userId with
  | none => Except.error 404
  | some n =>
    Except.ok { id := n.id, title := n.title, content := n.content,
                images := noteImages db n.id }

/-- Where processing of one image entry can throw: nowhere, at the file read /
`prisma.file.create`, or at `prisma.image.create` after the File row committed. -/
inductive ImageFault where
  | ok : ImageFault
  | atFile : ImageFault
  | atImage : ImageFault
  deriving Repr, DecidableEq

/-- The image loop with a fault oracle: entry `k` behaves per `fault k`.
Since no transaction wraps the loop, every Prisma call commits individually;
a thrown error therefore carries the database state already committed. -/
def saveImagesFrom (fault : Nat → ImageFault) (fsRead : String → List Nat)
    (noteId : Nat) : Nat → List RawImage → DB → Except DB DB
  | _, [], db => Except.ok db
  | k, e :: rest, db =>
    match fault k with
    | ImageFault.atFile => Except.error db
    | ImageFault.atImage => Except.error (fileCreate db (fsRead e.filepath)).2
    | ImageFault.ok =>
      let fd := fileCreate db (fsRead e.filepath)
      saveImagesFrom fault fsRead noteId (k + 1) rest
        (imageCreate fd.2 e.filetype noteId e.altText fd.1)

/-- The action under the image-fault oracle: identical control flow to
`action`, with the image loop replaced by its fallible version.  An error
result is the unhandled exception, carrying the state committed so far. -/
def actionF (fault : Nat → ImageFault) (fsRead : String → List Nat) (db : DB)
    (userId : Nat) (raw : RawSubmission) : Except DB (ActionResult × DB) :=
  let submission := parseSubmission raw
  if submission.intent != "submit" then
    Except.ok (ActionResult.idle submission, db)
  else
    match submission.value with
    | none => Except.ok (ActionResult.err 400 submission, db)
    | some v =>
      match v.id with
      | some i =>
        match findFirstNote db i userId with
        | none => Except.ok (ActionResult.err 404 submission, db)
        | some _ =>
          let db1 := noteUpdate db i userId v.title v.content
          match saveImagesFrom fault fsRead i 0 v.images db1 with
          | Except.error d => Except.error d
          | Except.ok db2 =>
            Except.ok (ActionResult.redirectWithToast
              ("/users/" ++ (lookupUsername db1 userId).getD "" ++
                "/notes/" ++ toString i)
              "Note updated", db2)
      | none =>
        let nd := noteCreate db userId v.title v.content
        match saveImagesFrom fault fsRead nd.1 0 v.images nd.2 with
        | Except.error d => Except.error d
        | Except.ok db2 =>
          Except.ok (ActionResult.redirectWithToast
            ("/users/" ++ (lookupUsername nd.2 userId).getD "" ++
              "/notes/" ++ toString nd.1)
            "Note created", db2)

/-- The File rows the image loop appends when the id counter starts at
`base`: one per entry, with consecutive fresh ids. -/
def addedFiles (fsRead : String → List Nat) : Nat → List RawImage → List FileRow
  | _, [] => []
  | base, e :: rest =>
    { id := base, blob := fsRead e.filepath } :: addedFiles fsRead (base + 1) rest

/-- The Image rows the image loop appends when the id counter starts at
`base`. -/
def addedImages (noteId : Nat) : Nat → List RawImage → List Image
  | _, [] => []
  | base, e :: rest =>
    { fileId := base, contentType := e.filetype, altText := e.altText,
      noteId := some noteId } :: addedImages noteId (base + 1) rest

/-- A row of the `Image` table before the `note_images` migration.  The
migration's `INSERT INTO new_Image ... SELECT` reads exactly five columns;
whatever other columns the old table carried are abstracted as `extra`. -/
structure OldImageRow (α : Type) where
  fileId : String
  contentType : String
  altText : Option String
  createdAt : Nat
  updatedAt : Nat
  extra : α
  deriving Repr, DecidableEq

/-- A row of the `new_Image` table created by the migration. -/
structure NewImageRow where
  fileId : String
  contentType : String
  altText : Option String
  createdAt : Nat
  updatedAt : Nat
  noteId : Option String
  deriving Repr, DecidableEq

/-- The data movement of `20230711042606_note_images/migration.sql`:
`INSERT INTO new_Image (altText, contentType, createdAt, fileId, updatedAt)
SELECT ... FROM Image`.  The unmentioned `noteId` column takes its NULL
default on every migrated row. -/
def migrateNoteImages {α : Type} (old : List (OldImageRow α)) : List NewImageRow :=
  old.map (fun r =>
    { fileId := r.fileId, contentType := r.contentType, altText := r.altText,
      createdAt := r.createdAt, updatedAt := r.updatedAt, noteId := none })

/-- A concrete pre-migration Image table (the abstracted extra columns are
trivial) used to exercise the migration theorem. -/
def oldImages0 : List (OldImageRow Unit) :=
  [{ fileId := "f1", contentType := "image/png", altText := some "a cat",
     createdAt := 100, updatedAt := 150, extra := () },
   { fileId := "f2", contentType := "image/jpeg", altText := none,
     createdAt := 200, updatedAt := 200, extra := () }]

/-- C3's outcome: a successful save appends exactly one File row and one
Image row per payload entry, the k-th Image pointing at the k-th new File,
every new Image attached to the saved note, alt text carried over (so null
exactly when omitted), and the new Images' file ids pairwise distinct. -/
def ImagesOutcome (fsRead : String → List Nat) (db : DB) (userId : Nat)
    (raw : RawSubmission) : Prop :=
  ∃ (nid : Nat) (newFiles : List FileRow) (newImages : List Image),
    (action fsRead db userId raw).2.files = db.files ++ newFiles ∧
    (action fsRead db userId raw).2.images = db.images ++ newImages ∧
    newFiles.length = raw.images.length ∧
    newImages.length = raw.images.length ∧
    (∃ n, n ∈ (action fsRead db userId raw).2.notes ∧ n.id = nid ∧
      n.ownerId = userId ∧ n.title = raw.title ∧ n.content = raw.content) ∧
    (∀ p ∈ newImages.zip newFiles, p.1.fileId = p.2.id) ∧
    (∀ im ∈ newImages, im.noteId = some nid) ∧
    (∀ p ∈ newImages.zip raw.images, p.1.altText = p.2.altText) ∧
    (newImages.map (fun im => im.fileId)).Nodup

/-- C7's outcome: when image entry `j` throws after the note row was saved,
the action surfaces the error, yet the committed state `dbp` keeps the fully
saved note table and all File/Image rows of the entries before `j` (they agree
pointwise with the fault-free run); nothing was rolled back. -/
def FaultOutcome (fault : Nat → ImageFault) (fsRead : String → List Nat)
    (db : DB) (userId : Nat) (raw : RawSubmission) (j : Nat) : Prop :=
  ∃ dbp : DB,
    actionF fault fsRead db userId raw = Except.error dbp ∧
    dbp.notes = (action fsRead db userId raw).2.notes ∧
    (∃ n, n ∈ dbp.notes ∧ n.ownerId = userId ∧ n.title = raw.title ∧
      n.content = raw.content) ∧
    dbp.images =
      ((action fsRead db userId raw).2.images).take (db.images.length + j) ∧
    dbp.images.length = db.images.length + j ∧
    db.files.length + j ≤ dbp.files.length ∧
    (∀ k, k < db.files.length + j →
      dbp.files[k]? = ((action fsRead db userId raw).2.files)[k]?)

/-- A concrete world exercising the theorems: two users, one note owned by
alice, an empty image store, and the id counter at 20. -/
def db0 : DB :=
  { users := [{ id := 1, username := "alice" }, { id := 2, username := "bob" }],
    notes := [{ id := 10, ownerId := 1, title := "Groceries",
                content := "Milk, eggs" }],
    files := [], images := [], nextId := 20 }

/-- A concrete stand-in for the filesystem read of stored uploads. -/
def fsRead0 : String → List Nat := fun _ => [137, 80, 78, 71]

/-- An uploaded image entry carrying alt text. -/
def img0 : RawImage :=
  { filepath := "/tmp/upload0", filetype := "image/jpeg", name := "fridge.jpg",
    altText := some "fridge" }

/-- An uploaded image entry with the alt text omitted. -/
def img1 : RawImage :=
  { filepath := "/tmp/upload1", filetype := "image/png", name := "pantry.png",
    altText := none }

/-- A valid create submission (no id) with two images. -/
def rawCreate0 : RawSubmission :=
  { intent := "submit", id := none, title := "Groceries",
    content := "Milk, eggs", images := [img0, img1] }

/-- A valid edit submission for alice's note 10. -/
def rawEdit0 : RawSubmission :=
  { intent := "submit", id := some 10, title := "Groceries v2",
    content := "Milk, eggs, bread", images := [img0] }

/-- An invalid submission: empty title and empty content. -/
def rawInvalid0 : RawSubmission :=
  { intent := "submit", id := none, title := "", content := "", images := [] }

/-- A conform list-manipulation submission, whose intent is not `submit`. -/
def rawListIntent0 : RawSubmission :=
  { intent := "list/append", id := none, title := "", content := "",
    images := [] }

/-- A fault oracle that throws at the second image entry's Image insert. -/
def fault0 : Nat → ImageFault :=
  fun k => if k = 1 then ImageFault.atImage else ImageFault.ok

@[simp] theorem addedFiles_length (fsRead : String → List Nat) :
    ∀ (base : Nat) (entries : List RawImage),
      (addedFiles fsRead base entries).length = entries.length
  | _, [] => rfl
  | base, _ :: rest => by
    simp [addedFiles, addedFiles_length fsRead (base + 1) rest]

@[simp] theorem addedImages_length (noteId : Nat) :
    ∀ (base : Nat) (entries : List RawImage),
      (addedImages noteId base entries).length = entries.length
  | _, [] => rfl
  | base, _ :: rest => by
    simp [addedImages, addedImages_length noteId (base + 1) rest]

/-- The image loop appends exactly the rows described by `addedFiles` and
`addedImages` and advances the id counter, leaving every other table alone. -/
theorem saveImages_eq (fsRead : String → List Nat) (noteId : Nat) :
    ∀ (entries : List RawImage) (db : DB),
      saveImages fsRead noteId entries db =
        { db with
            files := db.files ++ addedFiles fsRead db.nextId entries,
            images := db.images ++ addedImages noteId db.nextId entries,
            nextId := db.nextId + entries.length }
  | [], db => by simp [saveImages, addedFiles, addedImages]
  | e :: rest, db => by
    rw [saveImages, saveImages_eq fsRead noteId rest]
    simp [fileCreate, imageCreate, addedFiles, addedImages]
    omega

/-- On the update path (valid submission, id present and owned), the action
computes to a "Note updated" redirect and the state where the note row is
rewritten and the image rows appended. -/
theorem action_update_eq (fsRead : String → List Nat) (db : DB) (userId : Nat)
    (raw : RawSubmission) (i : Nat) (nt : Note)
    (hi : raw.intent = "submit") (hv : schemaErrors raw = [])
    (hid : raw.id = some i) (hf : findFirstNote db i userId = some nt) :
    action fsRead db userId raw =
      (ActionResult.redirectWithToast
        ("/users/" ++ (lookupUsername db userId).getD "" ++
          "/notes/" ++ toString i)
        "Note updated",
       { db with
           notes := db.notes.map (fun n =>
             if n.id == i then
               { n with ownerId := userId, title := raw.title,
                        content := raw.content }
             else n),
           files := db.files ++ addedFiles fsRead db.nextId raw.images,
           images := db.images ++ addedImages i db.nextId raw.images,
           nextId := db.nextId + raw.images.length }) := by
  simp only [action, parseSubmission, hi, hv, hid, List.isEmpty_nil, if_true,
    bne_self_eq_false, Bool.false_eq_true, if_false, hf]
  rw [saveImages_eq]
  simp [noteUpdate, lookupUsername]

/-- On the create path (valid submission, no id), the action computes to a
"Note created" redirect, the fresh note row appended, and the image rows
appended with ids following the note's. -/
theorem action_create_eq (fsRead : String → List Nat) (db : DB) (userId : Nat)
    (raw : RawSubmission)
    (hi : raw.intent = "submit") (hv : schemaErrors raw = [])
    (hid : raw.id = none) :
    action fsRead db userId raw =
      (ActionResult.redirectWithToast
        ("/users/" ++ (lookupUsername db userId).getD "" ++
          "/notes/" ++ toString db.nextId)
        "Note created",
       { db with
           notes := db.notes ++ [{ id := db.nextId, ownerId := userId,
                                   title := raw.title,
                                   content := raw.content }],
           files := db.files ++ addedFiles fsRead (db.nextId + 1) raw.images,
           images := db.images ++ addedImages db.nextId (db.nextId + 1) raw.images,
           nextId := db.nextId + 1 + raw.images.length }) := by
  simp only [action, parseSubmission, hi, hv, hid, List.isEmpty_nil, if_true,
    bne_self_eq_false, Bool.false_eq_true, if_false]
  rw [saveImages_eq]
  simp [noteCreate, lookupUsername]

/-- C9: for every submission whose intent is not `submit`, the action returns
the idle-status result echoing the submission and leaves the database
untouched: no Note, File, or Image row is created or updated. -/
theorem action_idle_on_non_submit_intent (fsRead : String → List Nat) (db : DB)
    (userId : Nat) (raw : RawSubmission) (h : raw.intent ≠ "submit") :
    action fsRead db userId raw = (ActionResult.idle (parseSubmission raw), db) := by
  simp [action, parseSubmission, h]

theorem action_idle_on_non_submit_intent_w :
    action fsRead0 db0 1 rawListIntent0 =
      (ActionResult.idle (parseSubmission rawListIntent0), db0) :=
  action_idle_on_non_submit_intent fsRead0 db0 1 rawListIntent0 (by decide)

/-- C1: for every valid submit payload whose id names no note owned by the
calling user (a nonexistent id or another user's note), the action returns
the 404 not-found response and performs no mutation: the database is returned
unchanged, so no Note row is created or updated and no File or Image row is
inserted. -/
theorem action_foreign_id_not_found (fsRead : String → List Nat) (db : DB)
    (userId : Nat) (raw : RawSubmission) (i : Nat)
    (hi : raw.intent = "submit") (hv : schemaErrors raw = [])
    (hid : raw.id = some i) (hnone : findFirstNote db i userId = none) :
    action fsRead db userId raw =
      (ActionResult.err 404 (parseSubmission raw), db) := by
  simp only [action, parseSubmission, hi, hv, hid, List.isEmpty_nil, if_true,
    bne_self_eq_false, Bool.false_eq_true, if_false, hnone]

theorem action_foreign_id_not_found_w :
    action fsRead0 db0 2 rawEdit0 =
      (ActionResult.err 404 (parseSubmission rawEdit0), db0) :=
  action_foreign_id_not_found fsRead0 db0 2 rawEdit0 10 rfl (by decide) rfl
    (by decide)

/-- C5: for every valid submit payload without an id, the action appends
exactly one new Note row, owned by the calling user and carrying the payload's
title and content; the new row's server-generated id differs from every
existing note's id and is the id the redirect reports. -/
theorem action_creates_one_note (fsRead : String → List Nat) (db : DB)
    (userId : Nat) (raw : RawSubmission) (uname : String)
    (hi : raw.intent = "submit") (hv : schemaErrors raw = [])
    (hid : raw.id = none) (hu : lookupUsername db userId = some uname)
    (hfresh : ∀ n ∈ db.notes, n.id < db.nextId) :
    (action fsRead db userId raw).2.notes =
      db.notes ++ [{ id := db.nextId, ownerId := userId, title := raw.title,
                     content := raw.content }] ∧
    (∀ n ∈ db.notes, n.id ≠ db.nextId) ∧
    (action fsRead db userId raw).1 =
      ActionResult.redirectWithToast
        ("/users/" ++ uname ++ "/notes/" ++ toString db.nextId)
        "Note created" := by
  rw [action_create_eq fsRead db userId raw hi hv hid]
  refine ⟨rfl, ?_, ?_⟩
  · exact fun n hn => Nat.ne_of_lt (hfresh n hn)
  · simp [hu]

theorem action_creates_one_note_w :
    (action fsRead0 db0 1 rawCreate0).2.notes =
      db0.notes ++ [{ id := 20, ownerId := 1, title := "Groceries",
                      content := "Milk, eggs" }] ∧
    (∀ n ∈ db0.notes, n.id ≠ 20) ∧
    (action fsRead0 db0 1 rawCreate0).1 =
      ActionResult.redirectWithToast "/users/alice/notes/20" "Note created" :=
  action_creates_one_note fsRead0 db0 1 rawCreate0 "alice" rfl (by decide) rfl
    (by decide) (by decide)

/-- C8: for every valid submit payload, a successful save responds with a
redirect whose target is built from the owner's username and the saved note's
id, with toast message "Note updated" when the payload carried an id and
"Note created" when it did not. -/
theorem action_redirect_and_toast (fsRead : String → List Nat) (db : DB)
    (userId : Nat) (raw : RawSubmission) (uname : String)
    (hi : raw.intent = "submit") (hv : schemaErrors raw = [])
    (hu : lookupUsername db userId = some uname) :
    (∀ i nt, raw.id = some i → findFirstNote db i userId = some nt →
      (action fsRead db userId raw).1 =
        ActionResult.redirectWithToast
          ("/users/" ++ uname ++ "/notes/" ++ toString i) "Note updated") ∧
    (raw.id = none →
      (action fsRead db userId raw).1 =
        ActionResult.redirectWithToast
          ("/users/" ++ uname ++ "/notes/" ++ toString db.nextId)
          "Note created") := by
  constructor
  · intro i nt hid hf
    rw [action_update_eq fsRead db userId raw i nt hi hv hid hf]
    simp [hu]
  · intro hid
    rw [action_create_eq fsRead db userId raw hi hv hid]
    simp [hu]

theorem action_redirect_and_toast_w :
    (action fsRead0 db0 1 rawEdit0).1 =
      ActionResult.redirectWithToast "/users/alice/notes/10" "Note updated" :=
  (action_redirect_and_toast fsRead0 db0 1 rawEdit0 "alice" rfl (by decide)
      (by decide)).1
    10 { id := 10, ownerId := 1, title := "Groceries", content := "Milk, eggs" }
    rfl (by decide)

/-- C2: the loader returns the note's id, title, content and its images'
(fileId, altText) exactly when a note with that id is owned by the requesting
user; in every other case — unknown id or a note owned by someone else — it
returns the one indistinguishable not-found value, the 404 error. -/
theorem loader_ownership_check (db : DB) (userId : Nat) (nid : Nat) :
    (loader db userId nid = Except.error 404 ↔
      ∀ n ∈ db.notes, ¬(n.id = nid ∧ n.ownerId = userId)) ∧
    ((∃ n, n ∈ db.notes ∧ n.id = nid ∧ n.ownerId = userId) →
      ∃ r, loader db userId nid = Except.ok r) ∧
    (∀ r, loader db userId nid = Except.ok r →
      ∃ n, n ∈ db.notes ∧ n.id = nid ∧ n.ownerId = userId ∧
        r = { id := n.id, title := n.title, content := n.content,
              images := noteImages db n.id }) := by
  refine ⟨?_, ?_, ?_⟩
  · constructor
    · intro h n hn hprop
      unfold loader at h
      cases hf : findFirstNote db nid userId with
      | none =>
        unfold findFirstNote at hf
        have hx := List.find?_eq_none.mp hf n hn
        simp [hprop.1, hprop.2] at hx
      | some nt =>
        simp only [hf] at h
        exact Except.noConfusion h
    · intro h
      unfold loader
      cases hf : findFirstNote db nid userId with
      | none => rfl
      | some nt =>
        exfalso
        unfold findFirstNote at hf
        have hmem := List.mem_of_find?_eq_some hf
        have hp := List.find?_some hf
        simp only [Bool.and_eq_true, beq_iff_eq] at hp
        exact h nt hmem ⟨hp.1, hp.2⟩
  · rintro ⟨n, hn, h1, h2⟩
    unfold loader
    cases hf : findFirstNote db nid userId with
    | none =>
      exfalso
      unfold findFirstNote at hf
      have hx := List.find?_eq_none.mp hf n hn
      simp [h1, h2] at hx
    | some nt => exact ⟨_, rfl⟩
  · intro r hr
    unfold loader at hr
    cases hf : findFirstNote db nid userId with
    | none =>
      simp only [hf] at hr
      exact Except.noConfusion hr
    | some nt =>
      simp only [hf] at hr
      have hreq : r = { id := nt.id, title := nt.title, content := nt.content,
                        images := noteImages db nt.id } := by
        cases hr; rfl
      unfold findFirstNote at hf
      have hmem := List.mem_of_find?_eq_some hf
      have hp := List.find?_some hf
      simp only [Bool.and_eq_true, beq_iff_eq] at hp
      exact ⟨nt, hmem, hp.1, hp.2, hreq⟩

theorem loader_ownership_check_w :
    loader db0 2 10 = Except.error 404 :=
  (loader_ownership_check db0 2 10).1.mpr (by decide)

theorem schemaErrors_title_mem (raw : RawSubmission)
    (h : raw.title.length = 0 ∨ 100 < raw.title.length) :
    ∃ m, ("title", m) ∈ schemaErrors raw := by
  unfold schemaErrors
  rcases h with h | h
  · exact ⟨minLenError 1, by simp [h]⟩
  · refine ⟨maxLenError 100, ?_⟩
    have h1 : ¬(raw.title.length < 1) := by omega
    simp [h, h1]

theorem schemaErrors_content_mem (raw : RawSubmission)
    (h : raw.content.length = 0 ∨ 10000 < raw.content.length) :
    ∃ m, ("content", m) ∈ schemaErrors raw := by
  unfold schemaErrors
  rcases h with h | h
  · exact ⟨minLenError 1, by simp [h]⟩
  · refine ⟨maxLenError 10000, ?_⟩
    have h1 : ¬(raw.content.length < 1) := by omega
    simp [h, h1]

/-- C6: a submit payload whose title has length 0 or above 100, or whose
content has length 0 or above 10000, yields the 400 validation response with
the database untouched, and the submission's error list cites every offending
field — both title and content errors appear together in the one result when
both bounds are violated. -/
theorem action_validation_error (fsRead : String → List Nat) (db : DB)
    (userId : Nat) (raw : RawSubmission)
    (hi : raw.intent = "submit")
    (hbad : (raw.title.length = 0 ∨ 100 < raw.title.length) ∨
      (raw.content.length = 0 ∨ 10000 < raw.content.length)) :
    action fsRead db userId raw =
      (ActionResult.err 400 (parseSubmission raw), db) ∧
    ((raw.title.length = 0 ∨ 100 < raw.title.length) →
      ∃ m, ("title", m) ∈ (parseSubmission raw).errors) ∧
    ((raw.content.length = 0 ∨ 10000 < raw.content.length) →
      ∃ m, ("content", m) ∈ (parseSubmission raw).errors) := by
  have hne : schemaErrors raw ≠ [] := by
    rcases hbad with h | h
    · obtain ⟨m, hm⟩ := schemaErrors_title_mem raw h
      exact List.ne_nil_of_mem hm
    · obtain ⟨m, hm⟩ := schemaErrors_content_mem raw h
      exact List.ne_nil_of_mem hm
  have hC : (schemaErrors raw).isEmpty = false := by
    simpa [List.isEmpty_iff] using hne
  refine ⟨?_, fun h => by simpa [parseSubmission] using schemaErrors_title_mem raw h,
    fun h => by simpa [parseSubmission] using schemaErrors_content_mem raw h⟩
  simp only [action, parseSubmission, hi, bne_self_eq_false, Bool.false_eq_true,
    if_false, hC]

theorem action_validation_error_w :
    action fsRead0 db0 1 rawInvalid0 =
      (ActionResult.err 400 (parseSubmission rawInvalid0), db0) ∧
    (∃ m, ("title", m) ∈ (parseSubmission rawInvalid0).errors) ∧
    (∃ m, ("content", m) ∈ (parseSubmission rawInvalid0).errors) := by
  obtain ⟨h1, h2, h3⟩ :=
    action_validation_error fsRead0 db0 1 rawInvalid0 rfl (Or.inl (Or.inl rfl))
  exact ⟨h1, h2 (Or.inl rfl), h3 (Or.inl rfl)⟩

/-- C4: for every valid submit payload whose id names a note owned by the
caller, the action rewrites exactly that note's title and content in place:
the notes table afterwards is the old table with only the matching row's
title/content replaced — its id, its ownerId, and every other row are
untouched — and no new Note row is created (the length is unchanged). -/
theorem action_update_in_place (fsRead : String → List Nat) (db : DB)
    (userId : Nat) (raw : RawSubmission) (i : Nat) (nt : Note)
    (hi : raw.intent = "submit") (hv : schemaErrors raw = [])
    (hid : raw.id = some i) (hf : findFirstNote db i userId = some nt)
    (hnodup : (db.notes.map Note.id).Nodup) :
    (action fsRead db userId raw).2.notes =
      db.notes.map (fun n =>
        if n.id = i then { n with title := raw.title, content := raw.content }
        else n) ∧
    ((action fsRead db userId raw).2.notes).length = db.notes.length := by
  rw [action_update_eq fsRead db userId raw i nt hi hv hid hf]
  have hfu := hf
  unfold findFirstNote at hfu
  have hmem := List.mem_of_find?_eq_some hfu
  have hp := List.find?_some hfu
  simp only [Bool.and_eq_true, beq_iff_eq] at hp
  constructor
  · apply List.map_congr_left
    intro n hn
    by_cases h : n.id = i
    · have hni : n = nt :=
        List.inj_on_of_nodup_map hnodup hn hmem (by rw [h, hp.1])
      have howner : n.ownerId = userId := by rw [hni]; exact hp.2
      obtain ⟨nid0, nown0, ntit0, ncon0⟩ := n
      simp only at h howner
      simp [h, howner]
    · simp [h]
  · simp

theorem action_update_in_place_w :
    (action fsRead0 db0 1 rawEdit0).2.notes =
      db0.notes.map (fun n =>
        if n.id = 10 then
          { n with title := "Groceries v2", content := "Milk, eggs, bread" }
        else n) ∧
    ((action fsRead0 db0 1 rawEdit0).2.notes).length = db0.notes.length :=
  action_update_in_place fsRead0 db0 1 rawEdit0 10
    { id := 10, ownerId := 1, title := "Groceries", content := "Milk, eggs" }
    rfl (by decide) rfl (by decide) (by decide)

theorem addedImages_zip_files (fsRead : String → List Nat) (noteId : Nat) :
    ∀ (entries : List RawImage) (base : Nat) (p : Image × FileRow),
      p ∈ (addedImages noteId base entries).zip (addedFiles fsRead base entries) →
      p.1.fileId = p.2.id
  | [], _, p => by simp [addedImages, addedFiles]
  | e :: rest, base, p => by
    simp only [addedImages, addedFiles, List.zip_cons_cons, List.mem_cons]
    rintro (rfl | hmem)
    · rfl
    · exact addedImages_zip_files fsRead noteId rest (base + 1) p hmem

theorem addedImages_noteId_eq (noteId : Nat) :
    ∀ (entries : List RawImage) (base : Nat) (im : Image),
      im ∈ addedImages noteId base entries → im.noteId = some noteId
  | [], _, im => by simp [addedImages]
  | e :: rest, base, im => by
    simp only [addedImages, List.mem_cons]
    rintro (rfl | hmem)
    · rfl
    · exact addedImages_noteId_eq noteId rest (base + 1) im hmem

theorem addedImages_zip_altText (noteId : Nat) :
    ∀ (entries : List RawImage) (base : Nat) (p : Image × RawImage),
      p ∈ (addedImages noteId base entries).zip entries →
      p.1.altText = p.2.altText
  | [], _, p => by simp [addedImages]
  | e :: rest, base, p => by
    simp only [addedImages, List.zip_cons_cons, List.mem_cons]
    rintro (rfl | hmem)
    · rfl
    · exact addedImages_zip_altText noteId rest (base + 1) p hmem

theorem addedImages_fileId_ge (noteId : Nat) :
    ∀ (entries : List RawImage) (base : Nat) (im : Image),
      im ∈ addedImages noteId base entries → base ≤ im.fileId
  | [], _, im => by simp [addedImages]
  | e :: rest, base, im => by
    simp only [addedImages, List.mem_cons]
    rintro (rfl | hmem)
    · exact Nat.le_refl base
    · exact Nat.le_of_succ_le (addedImages_fileId_ge noteId rest (base + 1) im hmem)

theorem addedImages_fileId_nodup (noteId : Nat) :
    ∀ (entries : List RawImage) (base : Nat),
      ((addedImages noteId base entries).map (fun im => im.fileId)).Nodup
  | [], _ => by simp [addedImages]
  | e :: rest, base => by
    simp only [addedImages, List.map_cons, List.nodup_cons, List.mem_map]
    constructor
    · rintro ⟨im, him, hfid⟩
      have := addedImages_fileId_ge noteId rest (base + 1) im him
      omega
    · exact addedImages_fileId_nodup noteId rest (base + 1)

/-- C3: for every valid submit payload that saves successfully (fresh note or
owned id), the action creates exactly one File row and one Image row per image
entry: the k-th new Image references the k-th new File's id (the File row is
in place when its Image row is written), all new Images carry the saved note's
id, alt text is copied from the entry (hence null exactly when omitted), and
the new Images' file ids are pairwise distinct. -/
theorem action_saves_images (fsRead : String → List Nat) (db : DB)
    (userId : Nat) (raw : RawSubmission)
    (hi : raw.intent = "submit") (hv : schemaErrors raw = [])
    (hok : raw.id = none ∨
      ∃ i nt, raw.id = some i ∧ findFirstNote db i userId = some nt) :
    ImagesOutcome fsRead db userId raw := by
  unfold ImagesOutcome
  rcases hok with hid | ⟨i, nt, hid, hf⟩
  · rw [action_create_eq fsRead db userId raw hi hv hid]
    refine ⟨db.nextId, addedFiles fsRead (db.nextId + 1) raw.images,
      addedImages db.nextId (db.nextId + 1) raw.images, rfl, rfl,
      by simp, by simp, ?_, ?_, ?_, ?_, ?_⟩
    · exact ⟨{ id := db.nextId, ownerId := userId, title := raw.title,
               content := raw.content },
        by simp, rfl, rfl, rfl, rfl⟩
    · exact fun p hp =>
        addedImages_zip_files fsRead db.nextId raw.images (db.nextId + 1) p hp
    · exact fun im him =>
        addedImages_noteId_eq db.nextId raw.images (db.nextId + 1) im him
    · exact fun p hp =>
        addedImages_zip_altText db.nextId raw.images (db.nextId + 1) p hp
    · exact addedImages_fileId_nodup db.nextId raw.images (db.nextId + 1)
  · rw [action_update_eq fsRead db userId raw i nt hi hv hid hf]
    have hfu := hf
    unfold findFirstNote at hfu
    have hmem := List.mem_of_find?_eq_some hfu
    have hp := List.find?_some hfu
    simp only [Bool.and_eq_true, beq_iff_eq] at hp
    refine ⟨i, addedFiles fsRead db.nextId raw.images,
      addedImages i db.nextId raw.images, rfl, rfl,
      by simp, by simp, ?_, ?_, ?_, ?_, ?_⟩
    · have hm2 : ({ nt with
          ownerId := userId, title := raw.title,
          content := raw.content } : Note) ∈ db.notes.map (fun n =>
            if n.id == i then
              { n with
                ownerId := userId, title := raw.title,
                content := raw.content }
            else n) := by
        have heq : ({ nt with
            ownerId := userId, title := raw.title,
            content := raw.content } : Note) =
            (fun n => if n.id == i then
              { n with
                ownerId := userId, title := raw.title,
                content := raw.content }
            else n) nt := by simp [hp.1]
        rw [heq]
        exact List.mem_map_of_mem _ hmem
      exact ⟨_, hm2, by simpa using hp.1, rfl, rfl, rfl⟩
    · exact fun p hp =>
        addedImages_zip_files fsRead i raw.images db.nextId p hp
    · exact fun im him =>
        addedImages_noteId_eq i raw.images db.nextId im him
    · exact fun p hp =>
        addedImages_zip_altText i raw.images db.nextId p hp
    · exact addedImages_fileId_nodup i raw.images db.nextId

theorem action_saves_images_w : ImagesOutcome fsRead0 db0 1 rawCreate0 :=
  action_saves_images fsRead0 db0 1 rawCreate0 rfl (by decide) (Or.inl rfl)

theorem addedFiles_append (fsRead : String → List Nat) :
    ∀ (xs ys : List RawImage) (base : Nat),
      addedFiles fsRead base (xs ++ ys) =
        addedFiles fsRead base xs ++ addedFiles fsRead (base + xs.length) ys
  | [], ys, base => by simp [addedFiles]
  | x :: xs, ys, base => by
    have ih := addedFiles_append fsRead xs ys (base + 1)
    have h : base + 1 + xs.length = base + (xs.length + 1) := by omega
    simp only [List.cons_append, addedFiles, List.append_eq, ih, h,
      List.length_cons]

theorem addedImages_append (noteId : Nat) :
    ∀ (xs ys : List RawImage) (base : Nat),
      addedImages noteId base (xs ++ ys) =
        addedImages noteId base xs ++
          addedImages noteId (base + xs.length) ys
  | [], ys, base => by simp [addedImages]
  | x :: xs, ys, base => by
    have ih := addedImages_append noteId xs ys (base + 1)
    have h : base + 1 + xs.length = base + (xs.length + 1) := by omega
    simp only [List.cons_append, addedImages, List.append_eq, ih, h,
      List.length_cons]

theorem addedFiles_split (fsRead : String → List Nat) (base j : Nat)
    (entries : List RawImage) (hj : j ≤ entries.length) :
    addedFiles fsRead base entries =
      addedFiles fsRead base (entries.take j) ++
        addedFiles fsRead (base + j) (entries.drop j) := by
  have h1 : (entries.take j).length = j := by
    simp only [List.length_take]
    omega
  calc addedFiles fsRead base entries
      = addedFiles fsRead base (entries.take j ++ entries.drop j) := by
        rw [List.take_append_drop]
    _ = addedFiles fsRead base (entries.take j) ++
          addedFiles fsRead (base + (entries.take j).length)
            (entries.drop j) :=
        addedFiles_append fsRead _ _ base
    _ = _ := by rw [h1]

theorem addedImages_split (noteId : Nat) (base j : Nat)
    (entries : List RawImage) (hj : j ≤ entries.length) :
    addedImages noteId base entries =
      addedImages noteId base (entries.take j) ++
        addedImages noteId (base + j) (entries.drop j) := by
  have h1 : (entries.take j).length = j := by
    simp only [List.length_take]
    omega
  calc addedImages noteId base entries
      = addedImages noteId base (entries.take j ++ entries.drop j) := by
        rw [List.take_append_drop]
    _ = addedImages noteId base (entries.take j) ++
          addedImages noteId (base + (entries.take j).length)
            (entries.drop j) :=
        addedImages_append noteId _ _ base
    _ = _ := by rw [h1]

theorem take_append_mid {α : Type} (pre mid post : List α) :
    (pre ++ (mid ++ post)).take (pre.length + mid.length) = pre ++ mid := by
  rw [← List.append_assoc]
  exact List.take_left' (by simp)

theorem getElem?_append_common {α : Type} (pre post1 post2 : List α) (k : Nat)
    (hk : k < pre.length) :
    (pre ++ post1)[k]? = (pre ++ post2)[k]? := by
  rw [List.getElem?_append_left hk, List.getElem?_append_left hk]

theorem take_append_mid' {α : Type} (pre mid post : List α) (j : Nat)
    (h : mid.length = j) :
    (pre ++ (mid ++ post)).take (pre.length + j) = pre ++ mid := by
  subst h
  rw [← List.append_assoc]
  exact List.take_left' (by simp)

/-- The shape of the tables after the image loop stops at entry `j`: the
images are exactly the first `j` new rows of the fault-free run, and the files
agree with the fault-free run on the old rows and the first `j` new rows. -/
theorem fault_tail_spec (fsRead : String → List Nat) (nid base j : Nat)
    (entries : List RawImage) (imgs : List Image) (fls extra : List FileRow)
    (hj : j < entries.length) :
    (imgs ++ addedImages nid base (entries.take j) =
      (imgs ++ addedImages nid base entries).take (imgs.length + j)) ∧
    (imgs ++ addedImages nid base (entries.take j)).length = imgs.length + j ∧
    fls.length + j ≤
      (fls ++ addedFiles fsRead base (entries.take j) ++ extra).length ∧
    (∀ k, k < fls.length + j →
      (fls ++ addedFiles fsRead base (entries.take j) ++ extra)[k]? =
        (fls ++ addedFiles fsRead base entries)[k]?) := by
  have hAlen : (addedFiles fsRead base (entries.take j)).length = j := by
    simp only [addedFiles_length, List.length_take]
    omega
  have hBlen : (addedImages nid base (entries.take j)).length = j := by
    simp only [addedImages_length, List.length_take]
    omega
  refine ⟨?_, ?_, ?_, ?_⟩
  · rw [addedImages_split nid base j entries (Nat.le_of_lt hj),
      take_append_mid' imgs _ _ j hBlen]
  · simp [hBlen]
  · simp [hAlen]
  · intro k hk
    rw [addedFiles_split fsRead base j entries (Nat.le_of_lt hj),
      ← List.append_assoc]
    exact getElem?_append_common
      (fls ++ addedFiles fsRead base (entries.take j)) extra _ k
      (by simp [hAlen]; omega)

/-- When every image entry before `j` succeeds and entry `j` throws, the image
loop surfaces the error after having committed the File and Image rows of the
first `j` entries (plus possibly the `j`-th File row, when the throw happens
at the Image insert). -/
theorem saveImagesFrom_fault (fault : Nat → ImageFault)
    (fsRead : String → List Nat) (noteId : Nat) :
    ∀ (entries : List RawImage) (j s : Nat) (db : DB),
      j < entries.length →
      fault (s + j) ≠ ImageFault.ok →
      (∀ k, k < j → fault (s + k) = ImageFault.ok) →
      ∃ extra : List FileRow, extra.length ≤ 1 ∧
        saveImagesFrom fault fsRead noteId s entries db =
          Except.error
            { db with
                files := db.files ++
                  addedFiles fsRead db.nextId (entries.take j) ++ extra,
                images := db.images ++
                  addedImages noteId db.nextId (entries.take j),
                nextId := db.nextId + j + extra.length }
  | [], j, s, db, hj, _, _ => absurd hj (by simp)
  | e :: rest, 0, s, db, hj, hfj, hb => by
    rw [saveImagesFrom]
    cases hfs : fault s with
    | ok => exact absurd hfs hfj
    | atFile =>
      refine ⟨[], by simp, ?_⟩
      simp [addedFiles, addedImages]
    | atImage =>
      refine ⟨[{ id := db.nextId, blob := fsRead e.filepath }], by simp, ?_⟩
      simp [fileCreate, addedFiles, addedImages]
  | e :: rest, j + 1, s, db, hj, hfj, hb => by
    have hs : fault s = ImageFault.ok := by
      have h0 := hb 0 (Nat.succ_pos j)
      simpa using h0
    rw [saveImagesFrom]
    simp only [hs]
    obtain ⟨extra, hle, heq⟩ :=
      saveImagesFrom_fault fault fsRead noteId rest j (s + 1)
        (imageCreate (fileCreate db (fsRead e.filepath)).2 e.filetype noteId
          e.altText (fileCreate db (fsRead e.filepath)).1)
        (by simpa using hj)
        (by
          have h2 : s + 1 + j = s + (j + 1) := by omega
          rw [h2]; exact hfj)
        (fun k hk => by
          have h3 : s + 1 + k = s + (k + 1) := by omega
          rw [h3]; exact hb (k + 1) (by omega))
    rw [heq]
    simp only [fileCreate, imageCreate, List.take_succ_cons, addedFiles,
      addedImages]
    simp [List.append_assoc]
    exact ⟨extra, hle, rfl, by omega⟩

/-- The action under a fault oracle, on the owned-id path, propagates the
error state thrown by the image loop. -/
theorem actionF_update_err (fault : Nat → ImageFault)
    (fsRead : String → List Nat) (db : DB) (userId : Nat)
    (raw : RawSubmission) (i : Nat) (nt : Note) (dbp : DB)
    (hi : raw.intent = "submit") (hv : schemaErrors raw = [])
    (hid : raw.id = some i) (hf : findFirstNote db i userId = some nt)
    (herr : saveImagesFrom fault fsRead i 0 raw.images
      (noteUpdate db i userId raw.title raw.content) = Except.error dbp) :
    actionF fault fsRead db userId raw = Except.error dbp := by
  simp only [actionF, parseSubmission, hi, hv, hid, List.isEmpty_nil, if_true,
    bne_self_eq_false, Bool.false_eq_true, if_false, hf, herr]

/-- The action under a fault oracle, on the fresh-note path, propagates the
error state thrown by the image loop. -/
theorem actionF_create_err (fault : Nat → ImageFault)
    (fsRead : String → List Nat) (db : DB) (userId : Nat)
    (raw : RawSubmission) (dbp : DB)
    (hi : raw.intent = "submit") (hv : schemaErrors raw = [])
    (hid : raw.id = none)
    (herr : saveImagesFrom fault fsRead db.nextId 0 raw.images
      { db with
          notes := db.notes ++ [{ id := db.nextId, ownerId := userId,
                                  title := raw.title,
                                  content := raw.content }],
          nextId := db.nextId + 1 } = Except.error dbp) :
    actionF fault fsRead db userId raw = Except.error dbp := by
  simp only [actionF, parseSubmission, noteCreate, hi, hv, hid,
    List.isEmpty_nil, if_true, bne_self_eq_false, Bool.false_eq_true,
    if_false, herr]

/-- C7: when image entry `j` throws after the note row was saved (every
earlier entry succeeded), the note save is not rolled back: the action
surfaces the error, and the committed state keeps the fully saved note table
— with the payload's new title and content — together with every File and
Image row inserted for the earlier entries, agreeing with the fault-free run
on those rows.  Note persistence and image persistence are separable steps,
not one atomic transaction. -/
theorem actionF_image_fault_keeps_note (fault : Nat → ImageFault)
    (fsRead : String → List Nat) (db : DB) (userId : Nat)
    (raw : RawSubmission) (j : Nat)
    (hi : raw.intent = "submit") (hv : schemaErrors raw = [])
    (hok : raw.id = none ∨
      ∃ i nt, raw.id = some i ∧ findFirstNote db i userId = some nt)
    (hj : j < raw.images.length)
    (hfj : fault j ≠ ImageFault.ok)
    (hb : ∀ k, k < j → fault k = ImageFault.ok) :
    FaultOutcome fault fsRead db userId raw j := by
  unfold FaultOutcome
  rcases hok with hid | ⟨i, nt, hid, hf⟩
  · obtain ⟨extra, hle, heq⟩ :=
      saveImagesFrom_fault fault fsRead db.nextId raw.images j 0
        { db with
            notes := db.notes ++ [{ id := db.nextId, ownerId := userId,
                                    title := raw.title,
                                    content := raw.content }],
            nextId := db.nextId + 1 }
        hj (by simpa using hfj) (fun k hk => by simpa using hb k hk)
    obtain ⟨himg, hlen, hfle, hptw⟩ :=
      fault_tail_spec fsRead db.nextId (db.nextId + 1) j raw.images
        db.images db.files extra hj
    refine ⟨_, actionF_create_err fault fsRead db userId raw _ hi hv hid heq,
      ?_, ?_, ?_, ?_, ?_, ?_⟩
    · rw [action_create_eq fsRead db userId raw hi hv hid]
    · exact ⟨Note.mk db.nextId userId raw.title raw.content,
        by simp, rfl, rfl, rfl⟩
    · rw [action_create_eq fsRead db userId raw hi hv hid]
      simpa using himg
    · simpa using hlen
    · simpa using hfle
    · intro k hk
      rw [action_create_eq fsRead db userId raw hi hv hid]
      simpa using hptw k hk
  · have hfu := hf
    unfold findFirstNote at hfu
    have hmem := List.mem_of_find?_eq_some hfu
    have hp := List.find?_some hfu
    simp only [Bool.and_eq_true, beq_iff_eq] at hp
    obtain ⟨extra, hle, heq⟩ :=
      saveImagesFrom_fault fault fsRead i raw.images j 0
        (noteUpdate db i userId raw.title raw.content)
        hj (by simpa using hfj) (fun k hk => by simpa using hb k hk)
    obtain ⟨himg, hlen, hfle, hptw⟩ :=
      fault_tail_spec fsRead i db.nextId j raw.images
        db.images db.files extra hj
    refine ⟨_, actionF_update_err fault fsRead db userId raw i nt _ hi hv hid
        hf heq, ?_, ?_, ?_, ?_, ?_, ?_⟩
    · rw [action_update_eq fsRead db userId raw i nt hi hv hid hf]
      simp [noteUpdate]
    · have heqn : Note.mk nt.id userId raw.title raw.content =
          (fun n => if n.id == i then
            { n with
              ownerId := userId, title := raw.title,
              content := raw.content }
          else n) nt := by
        simp [hp.1]
      refine ⟨Note.mk nt.id userId raw.title raw.content, ?_, rfl, rfl, rfl⟩
      show Note.mk nt.id userId raw.title raw.content ∈
        (noteUpdate db i userId raw.title raw.content).notes
      rw [heqn]
      unfold noteUpdate
      exact List.mem_map_of_mem _ hmem
    · rw [action_update_eq fsRead db userId raw i nt hi hv hid hf]
      simpa [noteUpdate] using himg
    · simpa [noteUpdate] using hlen
    · simpa [noteUpdate] using hfle
    · intro k hk
      rw [action_update_eq fsRead db userId raw i nt hi hv hid hf]
      simpa [noteUpdate] using hptw k hk

theorem actionF_image_fault_keeps_note_w :
    FaultOutcome fault0 fsRead0 db0 1 rawCreate0 1 :=
  actionF_image_fault_keeps_note fault0 fsRead0 db0 1 rawCreate0 1 rfl
    (by decide) (Or.inl rfl) (by decide) (by decide)
    (fun k hk => by
      have hk0 : k = 0 := by omega
      rw [hk0]
      rfl)

theorem zip_map_self {α β : Type} (f : α → β) :
    ∀ (l : List α) (p : β × α), p ∈ (l.map f).zip l → p.1 = f p.2
  | [], p => by simp
  | a :: as, p => by
    simp only [List.map_cons, List.zip_cons_cons, List.mem_cons]
    rintro (rfl | hmem)
    · rfl
    · exact zip_map_self f as p hmem

/-- C10: the `note_images` migration maps every pre-existing Image row to a
`new_Image` row in order, preserving its fileId, contentType, altText,
createdAt and updatedAt, while setting its noteId to NULL — so all images
existing before the migration end up attached to no note — and a table with
pairwise-distinct fileIds migrates to one with pairwise-distinct fileIds, so
the unique index on fileId is preserved. -/
theorem migrateNoteImages_preserves {α : Type} (old : List (OldImageRow α)) :
    (migrateNoteImages old).length = old.length ∧
    (∀ p ∈ (migrateNoteImages old).zip old,
      p.1.fileId = p.2.fileId ∧ p.1.contentType = p.2.contentType ∧
      p.1.altText = p.2.altText ∧ p.1.createdAt = p.2.createdAt ∧
      p.1.updatedAt = p.2.updatedAt ∧ p.1.noteId = none) ∧
    ((old.map (fun r => r.fileId)).Nodup →
      ((migrateNoteImages old).map (fun r => r.fileId)).Nodup) := by
  refine ⟨by simp [migrateNoteImages], ?_, ?_⟩
  · intro p hp
    have h1 := zip_map_self
      (fun r : OldImageRow α =>
        ({ fileId := r.fileId, contentType := r.contentType,
           altText := r.altText, createdAt := r.createdAt,
           updatedAt := r.updatedAt, noteId := none } : NewImageRow))
      old p hp
    rw [h1]
    exact ⟨rfl, rfl, rfl, rfl, rfl, rfl⟩
  · intro h
    have h2 : (migrateNoteImages old).map (fun r => r.fileId) =
        old.map (fun r => r.fileId) := by
      simp [migrateNoteImages, List.map_map]
    rw [h2]
    exact h

theorem migrateNoteImages_preserves_w :
    ((migrateNoteImages oldImages0).map (fun r => r.fileId)).Nodup ∧
    (∀ p ∈ (migrateNoteImages oldImages0).zip oldImages0,
      p.1.fileId = p.2.fileId ∧ p.1.contentType = p.2.contentType ∧
      p.1.altText = p.2.altText ∧ p.1.createdAt = p.2.createdAt ∧
      p.1.updatedAt = p.2.updatedAt ∧ p.1.noteId = none) :=
  ⟨(migrateNoteImages_preserves oldImages0).2.2 (by decide),
   (migrateNoteImages_preserves oldImages0).2.1⟩

end NoteApp
